import Mathlib

/-
  Verification of core behaviours of the llm-gateway backend
  (rule evaluation, retry/failover, sanitization, protocol conversion),
  as a shallow embedding of backend/app in Lean 4.
-/

namespace LlmGateway

/-- Python-style JSON-like values as they flow through the gateway: the request
body, rule values and header values are `dict`/`list`/`str`/`int`/`bool`/`None`
trees. `PyValue.none` is Python `None` (which doubles as JSON null). -/
inductive PyValue where
  | none
  | bool (b : Bool)
  | int (n : Int)
  | str (s : String)
  | list (xs : List PyValue)
  | dict (kvs : List (String × PyValue))

/-- Whether the value is Python `None` (the `actual is None` test). -/
def PyValue.isNone : PyValue → Bool
  | PyValue.none => true
  | _ => false

/-- Python truthiness (`if value:`): None, False, 0, empty string/list/dict are falsy. -/
def pyTruthy : PyValue → Bool
  | PyValue.none => false
  | PyValue.bool b => b
  | PyValue.int n => n != 0
  | PyValue.str s => !s.isEmpty
  | PyValue.list xs => !xs.isEmpty
  | PyValue.dict kvs => !kvs.isEmpty

/-- Python `bool` as an `int` (True == 1, False == 0). -/
def pyBoolInt (b : Bool) : Int := if b then 1 else 0

mutual

/-- Python `==` on the modelled value domain: numeric cross-comparison of
`bool` and `int`, structural equality elsewhere; values of unrelated types
compare unequal. -/
def pyEq : PyValue → PyValue → Bool
  | PyValue.none, PyValue.none => true
  | PyValue.bool a, PyValue.bool b => a == b
  | PyValue.int a, PyValue.int b => a == b
  | PyValue.bool a, PyValue.int b => pyBoolInt a == b
  | PyValue.int a, PyValue.bool b => a == pyBoolInt b
  | PyValue.str a, PyValue.str b => a == b
  | PyValue.list a, PyValue.list b => pyEqList a b
  | PyValue.dict a, PyValue.dict b => pyEqDict a b
  | _, _ => false

/-- Elementwise Python `==` on lists. -/
def pyEqList : List PyValue → List PyValue → Bool
  | [], [] => true
  | x :: xs, y :: ys => pyEq x y && pyEqList xs ys
  | _, _ => false

/-- Entrywise Python `==` on dicts (contexts built by the gateway keep keys
in insertion order with no duplicates). -/
def pyEqDict : List (String × PyValue) → List (String × PyValue) → Bool
  | [], [] => true
  | (k1, v1) :: xs, (k2, v2) :: ys => k1 == k2 && pyEq v1 v2 && pyEqDict xs ys
  | _, _ => false

end

mutual

/-- Python rich comparison (`<`, `>`, `<=`, `>=`) as a partial ordering:
`Option.none` models the `TypeError` raised on unordered operand types
(e.g. `str` against `int`, or anything against `None`). -/
def pyCompare : PyValue → PyValue → Option Ordering
  | PyValue.int a, PyValue.int b => some (compare a b)
  | PyValue.str a, PyValue.str b => some (compare a b)
  | PyValue.bool a, PyValue.bool b => some (compare (pyBoolInt a) (pyBoolInt b))
  | PyValue.bool a, PyValue.int b => some (compare (pyBoolInt a) b)
  | PyValue.int a, PyValue.bool b => some (compare a (pyBoolInt b))
  | PyValue.list a, PyValue.list b => pyCompareList a b
  | _, _ => Option.none

/-- Python lexicographic list comparison: skip `==` pairs, then compare the
first differing pair (which may itself raise). -/
def pyCompareList : List PyValue → List PyValue → Option Ordering
  | [], [] => some Ordering.eq
  | [], _ :: _ => some Ordering.lt
  | _ :: _, [] => some Ordering.gt
  | x :: xs, y :: ys => if pyEq x y then pyCompareList xs ys else pyCompare x y

end

/-- Python dict lookup on the association-list representation (first match;
the dicts built by the gateway carry no duplicate keys). -/
def lookupStr : List (String × PyValue) → String → Option PyValue
  | [], _ => Option.none
  | (k, v) :: rest, key => if k == key then some v else lookupStr rest key

/-! ## Python string primitives

Python strings are sequences of code points, so the embedding works on
`String.data : List Char`; this matches Python slicing and indexing exactly. -/

/-- Python `str.lower()`. -/
def strLower (s : String) : String := String.mk (s.data.map Char.toLower)

/-- Python `str.startswith(p)`. -/
def strStartsWith (s p : String) : Bool := p.data.isPrefixOf s.data

/-- Python `str.endswith(p)`. -/
def strEndsWith (s p : String) : Bool := p.data.isSuffixOf s.data

/-- Python slicing `s[n:]`. -/
def strDrop (s : String) (n : Nat) : String := String.mk (s.data.drop n)

/-- Python slicing `s[:n]`. -/
def strTake (s : String) (n : Nat) : String := String.mk (s.data.take n)

/-- Python slicing `s[-n:]` for `n ≥ 1` (whole string when shorter than `n`). -/
def strTakeRight (s : String) (n : Nat) : String :=
  String.mk (s.data.drop (s.data.length - n))

/-- Python `len(s)`. -/
def strLength (s : String) : Nat := s.data.length

/-- Python `sep in s` for a single-character separator (`"[" in current`). -/
def strContainsChar (s : String) (c : Char) : Bool := s.data.contains c

/-- Python slicing `s[:-n]`. -/
def strDropRight (s : String) (n : Nat) : String :=
  String.mk (s.data.take (s.data.length - n))

/-- Helper for `strSplitChar` accumulating the current segment in reverse. -/
def strSplitCharAux (sep : Char) : List Char → List Char → List String
  | [], acc => [String.mk acc.reverse]
  | c :: rest, acc =>
    if c == sep then String.mk acc.reverse :: strSplitCharAux sep rest []
    else strSplitCharAux sep rest (c :: acc)

/-- Python `s.split(sep)` for a single-character separator. -/
def strSplitChar (s : String) (sep : Char) : List String :=
  strSplitCharAux sep s.data []

/-- Python `str.strip()` (whitespace trim at both ends). -/
def strStrip (s : String) : String :=
  String.mk (((s.data.dropWhile Char.isWhitespace).reverse.dropWhile
    Char.isWhitespace).reverse)

/-- Python `needle in hay` on strings (contiguous substring test; the empty
needle is contained in every string). -/
def listContainsSub : List Char → List Char → Bool
  | needle, [] => needle.isEmpty
  | needle, c :: rest => needle.isPrefixOf (c :: rest) || listContainsSub needle rest

/-- Python `int(s)` restricted to unsigned decimal digits; `Option.none`
models the `ValueError` raised otherwise (signs and surrounding whitespace,
which Python would accept, are not produced by the gateway's rule paths). -/
def strToNat? (s : String) : Option Nat :=
  if !s.data.isEmpty && s.data.all Char.isDigit then
    some (s.data.foldl (fun n c => n * 10 + (c.toNat - 48)) 0)
  else Option.none

/-- Python `str()` of a value (string escaping inside nested reprs omitted;
no gateway code path feeds containers to `str()`). -/
def pyStr : PyValue → String
  | PyValue.none => "None"
  | PyValue.bool b => if b then "True" else "False"
  | PyValue.int n => toString n
  | PyValue.str s => s
  | PyValue.list _ => "[...]"
  | PyValue.dict _ => "\x7b...\x7d"

/-! ## Sanitizer (app/common/sanitizer.py) -/

/-- Embeds `sanitize_authorization` from app/common/sanitizer.py: empty values
pass through; a value with a case-insensitive `bearer ` head is split into the
canonical prefix `Bearer ` and the token after the first 7 characters; tokens
of length at most 8 become `***`, longer tokens keep their first 4 and last 2
characters around the mask `***...***`. -/
def sanitize_authorization (value : String) : String :=
  if value = "" then value
  else
    let hasBearer := strStartsWith (strLower value) ("bearer ")
    let pfx := if hasBearer then "Bearer " else ""
    let token := if hasBearer then strDrop value 7 else value
    if strLength token ≤ 8 then pfx ++ "***"
    else pfx ++ strTake token 4 ++ "***...***" ++ strTakeRight token 2

/-- The header names masked by `sanitize_headers`. -/
def sensitive_fields : List String := ["authorization", "x-api-key", "api-key"]

/-- Embeds `sanitize_headers` from app/common/sanitizer.py: copies the header
map, applying `sanitize_authorization` to string values of the sensitive keys
(case-insensitive key match). -/
def sanitize_headers (headers : List (String × PyValue)) : List (String × PyValue) :=
  headers.map (fun kv =>
    match kv.2 with
    | PyValue.str s =>
        if sensitive_fields.contains (strLower kv.1)
        then (kv.1, PyValue.str (sanitize_authorization s))
        else kv
    | _ => kv)

/-- C4: for every non-empty value beginning with `bearer ` case-insensitively,
`sanitize_authorization` emits the `Bearer ` prefix followed by a mask of the
token after the 7-character prefix: first 4 characters, `***...***`, last 2
characters when the token has at least 9 characters, and the bare mask `***`
when the token is shorter than 9 characters. -/
theorem sanitize_authorization_bearer_mask (value : String)
    (hne : value ≠ "")
    (hb : strStartsWith (strLower value) ("bearer ") = true) :
    (9 ≤ strLength (strDrop value 7) →
      sanitize_authorization value =
        "Bearer " ++ strTake (strDrop value 7) 4 ++ "***...***" ++
          strTakeRight (strDrop value 7) 2) ∧
    (strLength (strDrop value 7) < 9 →
      sanitize_authorization value = "Bearer " ++ "***") := by
  unfold sanitize_authorization
  rw [if_neg hne]
  simp only [hb, if_pos]
  constructor
  · intro h9
    rw [if_neg (by omega)]
  · intro h8
    rw [if_pos (by omega)]

/-- Witness for C4 at a concrete bearer value with an 11-character token and
one with a 5-character token. -/
theorem sanitize_authorization_bearer_mask_witness :
    sanitize_authorization ("Bearer abcdefghijk") = "Bearer abcd***...***jk" ∧
    sanitize_authorization ("bearer short") = "Bearer ***" := by
  constructor
  · have h := (sanitize_authorization_bearer_mask ("Bearer abcdefghijk")
      (by decide) (by decide)).1 (by decide)
    rw [h]; decide
  · have h := (sanitize_authorization_bearer_mask ("bearer short")
      (by decide) (by decide)).2 (by decide)
    rw [h]; decide

/-! ## Rule context (app/rules/context.py) -/

/-- Embeds the `TokenUsage` dataclass from app/rules/context.py. -/
structure TokenUsage where
  input_tokens : Int := 0
  output_tokens : Int := 0

/-- Embeds the `total_tokens` property of `TokenUsage`. -/
def TokenUsage.total_tokens (t : TokenUsage) : Int := t.input_tokens + t.output_tokens

/-- Embeds the `RuleContext` dataclass from app/rules/context.py. -/
structure RuleContext where
  current_model : String
  headers : List (String × String) := []
  request_body : List (String × PyValue) := []
  token_usage : TokenUsage := {}

/-- Embeds `RuleContext._get_nested_value`: dotted-path descent over dicts,
with `key[index]` segments for list access; any miss yields Python `None`. -/
def get_nested_value : PyValue → List String → PyValue
  | obj, [] => obj
  | obj, current :: remaining =>
    if strContainsChar current '[' && strEndsWith current ("]") then
      let key := String.mk (current.data.takeWhile (fun c => c != '['))
      let indexStr := strDropRight (strDrop current (strLength (String.mk
        (current.data.takeWhile (fun c => c != '['))) + 1)) 1
      match strToNat? indexStr with
      | Option.none => PyValue.none
      | some index =>
        match obj with
        | PyValue.dict kvs =>
          match lookupStr kvs key with
          | some (PyValue.list arr) =>
            match arr.get? index with
            | some elem => get_nested_value elem remaining
            | Option.none => PyValue.none
          | _ => PyValue.none
        | _ => PyValue.none
    else
      match obj with
      | PyValue.dict kvs =>
        match lookupStr kvs current with
        | some v => get_nested_value v remaining
        | Option.none => PyValue.none
      | _ => PyValue.none

/-- Embeds `RuleContext._get_token_usage_value`: only the head of the
remaining path is consulted. -/
def RuleContext.get_token_usage_value (ctx : RuleContext) : List String → PyValue
  | [] => PyValue.dict
      [("input_tokens", PyValue.int ctx.token_usage.input_tokens),
       ("output_tokens", PyValue.int ctx.token_usage.output_tokens)]
  | fieldName :: _ =>
    if fieldName == "input_tokens" then PyValue.int ctx.token_usage.input_tokens
    else if fieldName == "output_tokens" then PyValue.int ctx.token_usage.output_tokens
    else if fieldName == "total_tokens" then PyValue.int ctx.token_usage.total_tokens
    else PyValue.none

/-- Embeds `RuleContext.get_value` from app/rules/context.py: resolves the
roots `model`, `headers`, `body`, `token_usage`; every missing path returns
Python `None`. -/
def RuleContext.get_value (ctx : RuleContext) (field_path : String) : PyValue :=
  if field_path == "" then PyValue.none
  else
    let parts := strSplitChar field_path '.'
    let root := strLower (parts.headD (""))
    if root == "model" then PyValue.str ctx.current_model
    else if root == "headers" then
      get_nested_value
        (PyValue.dict (ctx.headers.map (fun kv => (kv.1, PyValue.str kv.2)))) parts.tail
    else if root == "body" then
      get_nested_value (PyValue.dict ctx.request_body) parts.tail
    else if root == "token_usage" then
      ctx.get_token_usage_value parts.tail
    else PyValue.none

/-! ## Rule evaluator (app/rules/evaluator.py)

The operator implementations return `Option Bool`: `Option.none` models an
exception escaping the operator body, which `evaluate_rule`'s `try/except`
coerces to `False`. The `regex` operator delegates to an abstract
`regexSearch` argument standing in for `re.compile(...).search` (`Option.none`
models `re.error`). -/

/-- Embeds `RuleEvaluator._evaluate_eq`. -/
def evaluate_eq (actual expected : PyValue) : Bool := pyEq actual expected

/-- Embeds `RuleEvaluator._evaluate_ne`. -/
def evaluate_ne (actual expected : PyValue) : Bool := !pyEq actual expected

/-- Embeds `RuleEvaluator._evaluate_gt`. -/
def evaluate_gt (actual expected : PyValue) : Option Bool :=
  if actual.isNone then some false
  else (pyCompare actual expected).map (fun o => o == Ordering.gt)

/-- Embeds `RuleEvaluator._evaluate_gte`. -/
def evaluate_gte (actual expected : PyValue) : Option Bool :=
  if actual.isNone then some false
  else (pyCompare actual expected).map (fun o => o != Ordering.lt)

/-- Embeds `RuleEvaluator._evaluate_lt`. -/
def evaluate_lt (actual expected : PyValue) : Option Bool :=
  if actual.isNone then some false
  else (pyCompare actual expected).map (fun o => o == Ordering.lt)

/-- Embeds `RuleEvaluator._evaluate_lte`. -/
def evaluate_lte (actual expected : PyValue) : Option Bool :=
  if actual.isNone then some false
  else (pyCompare actual expected).map (fun o => o != Ordering.gt)

/-- Embeds `RuleEvaluator._evaluate_contains`: substring test on string
actuals; `False` on `None` or non-string actuals. -/
def evaluate_contains (actual expected : PyValue) : Bool :=
  match actual with
  | PyValue.str s => listContainsSub (pyStr expected).data s.data
  | _ => false

/-- Embeds `RuleEvaluator._evaluate_not_contains`: negated substring test on
string actuals; `True` on `None` or non-string actuals. -/
def evaluate_not_contains (actual expected : PyValue) : Bool :=
  match actual with
  | PyValue.str s => !(listContainsSub (pyStr expected).data s.data)
  | _ => true

/-- Embeds `RuleEvaluator._evaluate_regex` over the abstract matcher. -/
def evaluate_regex (regexSearch : String → String → Option Bool)
    (actual expected : PyValue) : Bool :=
  match actual with
  | PyValue.str s =>
    match regexSearch (pyStr expected) s with
    | some b => b
    | Option.none => false
  | _ => false

/-- Embeds `RuleEvaluator._evaluate_in`. -/
def evaluate_in (actual expected : PyValue) : Bool :=
  match expected with
  | PyValue.list xs => xs.any (fun x => pyEq x actual)
  | _ => false

/-- Embeds `RuleEvaluator._evaluate_not_in`. -/
def evaluate_not_in (actual expected : PyValue) : Bool :=
  match expected with
  | PyValue.list xs => !xs.any (fun x => pyEq x actual)
  | _ => true

/-- Embeds `RuleEvaluator._evaluate_exists`: presence is `actual is not None`;
a truthy expected asserts presence, a falsy expected asserts absence. -/
def evaluate_exists (actual expected : PyValue) : Bool :=
  let ex := !actual.isNone
  if pyTruthy expected then ex else !ex

/-- Modelled from the spec: the `Rule` record of app/rules/models.py (absent
from the source tree); §3 gives `field`, `operator`, `value`. -/
structure Rule where
  field : String
  operator : String
  value : PyValue

/-- Embeds `RuleEvaluator.evaluate_rule` from app/rules/evaluator.py:
operator dispatch on the lowercased operator name, unknown operators and
caught exceptions yield `False`. -/
def evaluate_rule (regexSearch : String → String → Option Bool)
    (rule : Rule) (ctx : RuleContext) : Bool :=
  let actual_value := ctx.get_value rule.field
  let expected_value := rule.value
  let op := strLower rule.operator
  let result : Option Bool :=
    if op == "eq" then some (evaluate_eq actual_value expected_value)
    else if op == "ne" then some (evaluate_ne actual_value expected_value)
    else if op == "gt" then evaluate_gt actual_value expected_value
    else if op == "gte" then evaluate_gte actual_value expected_value
    else if op == "lt" then evaluate_lt actual_value expected_value
    else if op == "lte" then evaluate_lte actual_value expected_value
    else if op == "contains" then some (evaluate_contains actual_value expected_value)
    else if op == "not_contains" then some (evaluate_not_contains actual_value expected_value)
    else if op == "regex" then some (evaluate_regex regexSearch actual_value expected_value)
    else if op == "in" then some (evaluate_in actual_value expected_value)
    else if op == "not_in" then some (evaluate_not_in actual_value expected_value)
    else if op == "exists" then some (evaluate_exists actual_value expected_value)
    else some false
  result.getD false

/-- Modelled from the spec: the `RuleSet` record of app/rules/models.py
(absent from the source tree); §3 gives `rules` plus `logic ∈ {AND, OR}`,
and `is_empty` holds exactly when the rules list is empty. -/
structure RuleSet where
  rules : List Rule
  logic : String := "AND"

/-- Modelled from the spec: `RuleSet.is_empty`. -/
def RuleSet.is_empty (rs : RuleSet) : Bool := rs.rules.isEmpty

/-- Embeds `RuleEvaluator.evaluate_ruleset` from app/rules/evaluator.py:
`None` or empty rulesets pass; otherwise `OR` aggregates with any,
everything else (`AND` default) with all. -/
def evaluate_ruleset (regexSearch : String → String → Option Bool)
    (ruleset : Option RuleSet) (ctx : RuleContext) : Bool :=
  match ruleset with
  | Option.none => true
  | some rs =>
    if rs.is_empty then true
    else
      let results := rs.rules.map (fun r => evaluate_rule regexSearch r ctx)
      if rs.logic == "OR" then results.any id else results.all id

/-- C5: an absent ruleset and a ruleset with an empty rules list evaluate to
true for every context, whatever the logic string (in particular for both
`AND` and `OR`). -/
theorem evaluate_ruleset_empty_true
    (regexSearch : String → String → Option Bool)
    (ctx : RuleContext) (logic : String) :
    evaluate_ruleset regexSearch Option.none ctx = true ∧
    evaluate_ruleset regexSearch (some { rules := [], logic := logic }) ctx = true := by
  exact ⟨rfl, rfl⟩

/-- C10: `_evaluate_not_contains` is the pointwise boolean negation of
`_evaluate_contains`, including on absent (`None`) and non-string actuals,
where `contains` is false and `not_contains` is true. -/
theorem not_contains_negates_contains (actual expected : PyValue) :
    evaluate_not_contains actual expected = !evaluate_contains actual expected := by
  cases actual <;> rfl

/-- C7 (amended): `get_value` resolves missing paths to Python `None`, the
very value a present null also resolves to; consequently the `exists`
operator with a falsy expected value holds exactly when the path resolves to
`None`, whether the path is missing or present with a null value. -/
theorem exists_false_iff_resolves_none
    (regexSearch : String → String → Option Bool)
    (f : String) (ctx : RuleContext) :
    evaluate_rule regexSearch
      { field := f, operator := "exists", value := PyValue.bool false } ctx
      = (ctx.get_value f).isNone := by
  show evaluate_exists (ctx.get_value f) (PyValue.bool false) = (ctx.get_value f).isNone
  unfold evaluate_exists
  simp [pyTruthy]

/-- C7 (counterexample): with a request body carrying `foo: null`, the
present path `body.foo` and the missing path `body.missing` both resolve to
`None` (no distinguished absent value), and `exists` with `expected = false`
accepts the present-but-null path. -/
theorem exists_false_null_counterexample :
    (RuleContext.get_value
      { current_model := "m", request_body := [("foo", PyValue.none)] }
      ("body.foo")).isNone = true ∧
    (RuleContext.get_value
      { current_model := "m", request_body := [("foo", PyValue.none)] }
      ("body.missing")).isNone = true ∧
    (lookupStr [("foo", PyValue.none)] ("foo")).isSome = true ∧
    evaluate_rule (fun _ _ => Option.none)
      { field := "body.foo", operator := "exists", value := PyValue.bool false }
      { current_model := "m", request_body := [("foo", PyValue.none)] } = true := by
  refine ⟨rfl, rfl, rfl, rfl⟩

/-- C6 (amended): for the ordered operators `gt`, `gte`, `lt`, `lte`,
`evaluate_rule` returns false whenever the actual value is absent (`None`)
or is not order-comparable with the expected value (the `TypeError` of e.g.
a string actual against a numeric expected is caught and coerced to false);
a string actual compared against a string expected is however compared
lexicographically and can yield true. -/
theorem ordered_ops_absent_or_incomparable_false
    (regexSearch : String → String → Option Bool)
    (rule : Rule) (ctx : RuleContext)
    (hop : strLower rule.operator = "gt" ∨ strLower rule.operator = "gte" ∨
      strLower rule.operator = "lt" ∨ strLower rule.operator = "lte")
    (hbad : (ctx.get_value rule.field).isNone = false →
      pyCompare (ctx.get_value rule.field) rule.value = Option.none) :
    evaluate_rule regexSearch rule ctx = false := by
  have key : ∀ g : Ordering → Bool,
      (if (ctx.get_value rule.field).isNone then some false
        else (pyCompare (ctx.get_value rule.field) rule.value).map g).getD false
        = false := by
    intro g
    cases hn : (ctx.get_value rule.field).isNone
    · rw [if_neg (by simp [hn]), hbad hn]; rfl
    · rw [if_pos (by simp [hn])]; rfl
  unfold evaluate_rule
  rcases hop with h | h | h | h <;> rw [h]
  · exact key (fun o => o == Ordering.gt)
  · exact key (fun o => o != Ordering.lt)
  · exact key (fun o => o == Ordering.lt)
  · exact key (fun o => o != Ordering.gt)

/-- Witness for C6 (amended): a rule `model gt 1` against a context whose
model is the string `b`: the actual is a string, the expected an int, the
comparison raises, and the rule evaluates to false. -/
theorem ordered_ops_absent_or_incomparable_false_witness :
    evaluate_rule (fun _ _ => Option.none)
      { field := "model", operator := "gt", value := PyValue.int 1 }
      { current_model := "b" } = false := by
  exact ordered_ops_absent_or_incomparable_false (fun _ _ => Option.none)
    { field := "model", operator := "gt", value := PyValue.int 1 }
    { current_model := "b" } (Or.inl (by decide)) (fun _ => rfl)

/-- C6 (counterexample): a rule `model gt "a"` against a context whose model
is the string `b` has a non-numeric (string) actual, yet `evaluate_rule`
returns true (Python compares the strings lexicographically), contradicting
the claim that a non-numeric actual always yields false. -/
theorem ordered_ops_string_actual_counterexample :
    evaluate_rule (fun _ _ => Option.none)
      { field := "model", operator := "gt", value := PyValue.str ("a") }
      { current_model := "b" } = true := by
  rfl

/-! ## Retry and failover handler (app/services/retry_handler.py)

`execute_with_retry` is an async loop driven by a forward function and a
selection strategy. The embedding makes the effects explicit:

* the forward function is deterministic in the global call index
  (`forward : Nat → CandidateProvider → ProviderResponse`), which numbers the
  upstream attempts in order;
* the strategy's `select` is an abstract argument (`strategy.py` backs it);
* `RetryLoopState` threads the loop variables (`tried_providers`,
  `total_retry_count`, `last_response`, `last_provider`) and additionally
  instruments the run with the ordered list of providers passed to the
  forward function (`callsLog`) and the number of `asyncio.sleep` calls
  (`sleeps`), so that call counts and inter-attempt delays are statable;
* the outer provider-switching `while` is fuel-bounded; `Option.none` marks
  fuel exhaustion and the theorems show the allotted fuel
  (`candidates.length + 1`) is never exhausted. -/

/-- Modelled from the spec: `ProviderResponse` of app/providers/base.py
(absent from the source tree); §4.5/§4.6 class a response as success on
2xx/3xx and as the transient server-error class on HTTP 5xx or the
network-failure marker `status = 0`. -/
structure ProviderResponse where
  status_code : Int
  body : Option PyValue := Option.none
  error : Option String := Option.none

/-- Success predicate on responses (2xx/3xx). -/
def ProviderResponse.is_success (r : ProviderResponse) : Bool :=
  decide (200 ≤ r.status_code) && decide (r.status_code < 400)

/-- Transient server-error predicate on responses (5xx or network failure). -/
def ProviderResponse.is_server_error (r : ProviderResponse) : Bool :=
  decide (500 ≤ r.status_code) || decide (r.status_code = 0)

/-- Embeds the `CandidateProvider` dataclass from app/domain/request.py
(re-exported as app.rules.models.CandidateProvider). -/
structure CandidateProvider where
  provider_id : Int
  provider_name : String
  base_url : String
  protocol : String
  api_key : Option String
  target_model : String
  priority : Int := 0
  weight : Int := 1

/-- Embeds the `RetryResult` dataclass from app/services/retry_handler.py. -/
structure RetryResult where
  response : ProviderResponse
  retry_count : Nat
  final_provider : Option CandidateProvider
  success : Bool

/-- The loop variables of `execute_with_retry` plus instrumentation
(`callsLog`, `sleeps`); see the section header. -/
@[ext]
structure RetryLoopState where
  callIdx : Nat := 0
  total : Nat := 0
  sleeps : Nat := 0
  callsLog : List CandidateProvider := []
  lastResponse : Option ProviderResponse := Option.none
  lastProvider : Option CandidateProvider := Option.none
  tried : List Int := []

/-- Set insertion into the `tried_providers` set (represented as the list of
inserted ids). -/
def insertTried (x : Int) (tried : List Int) : List Int :=
  if tried.contains x then tried else x :: tried

/-- Embeds `RetryHandler._get_next_untried_provider`: the first candidate in
list order whose provider id has not been tried. -/
def get_next_untried_provider (candidates : List CandidateProvider)
    (tried : List Int) : Option CandidateProvider :=
  candidates.find? (fun c => !(tried.contains c.provider_id))

/-- Embeds the inner `while same_provider_retries < self.max_retries` loop of
`execute_with_retry`: call the forward function; return the response on
success; on a server error count the attempt and either sleep-and-retry or
break at the retry cap; on any other failure count the attempt and break.
`remaining` is `max_retries - same_provider_retries`. -/
def retryInnerLoop (forward : Nat → CandidateProvider → ProviderResponse)
    (p : CandidateProvider) :
    Nat → RetryLoopState → RetryLoopState × Option ProviderResponse
  | 0, st => (st, Option.none)
  | remaining + 1, st =>
    let resp := forward st.callIdx p
    let st1 : RetryLoopState :=
      { st with callIdx := st.callIdx + 1, callsLog := st.callsLog ++ [p],
                lastResponse := some resp }
    if resp.is_success then (st1, some resp)
    else if resp.is_server_error then
      let st2 := { st1 with total := st1.total + 1 }
      if remaining = 0 then (st2, Option.none)
      else retryInnerLoop forward p remaining { st2 with sleeps := st2.sleeps + 1 }
    else ({ st1 with total := st1.total + 1 }, Option.none)

/-- The final `RetryResult` of `execute_with_retry` when every provider has
been tried without success. -/
def retryFinalFailure (st : RetryLoopState) : RetryResult :=
  { response := st.lastResponse.getD
      { status_code := 503, error := some ("All providers failed") },
    retry_count := st.total,
    final_provider := st.lastProvider,
    success := false }

/-- Embeds the outer `while current_provider is not None` loop of
`execute_with_retry`: mark the current provider tried, run the inner retry
loop, return on success, otherwise advance to the next untried candidate or
give up. -/
def retryOuterLoop (forward : Nat → CandidateProvider → ProviderResponse)
    (candidates : List CandidateProvider) (maxRetries : Nat) :
    Nat → CandidateProvider → RetryLoopState → Option (RetryResult × RetryLoopState)
  | 0, _, _ => Option.none
  | fuel + 1, current, st =>
    let st0 := { st with tried := insertTried current.provider_id st.tried,
                         lastProvider := some current }
    match retryInnerLoop forward current maxRetries st0 with
    | (st1, some resp) =>
      some ({ response := resp, retry_count := st1.total,
              final_provider := some current, success := true }, st1)
    | (st1, Option.none) =>
      match get_next_untried_provider candidates st1.tried with
      | Option.none => some (retryFinalFailure st1, st1)
      | some next => retryOuterLoop forward candidates maxRetries fuel next st1

/-- Embeds `RetryHandler.execute_with_retry` from
app/services/retry_handler.py: empty candidate lists short-circuit with a
503; otherwise the strategy picks the first provider and the failover loop
runs (fuel `candidates.length + 1`, shown sufficient in the theorems). -/
def execute_with_retry
    (strategySelect : List CandidateProvider → Option CandidateProvider)
    (maxRetries : Nat)
    (candidates : List CandidateProvider)
    (forward : Nat → CandidateProvider → ProviderResponse) :
    Option (RetryResult × RetryLoopState) :=
  if candidates.isEmpty then
    some ({ response := { status_code := 503, error := some ("No available providers") },
            retry_count := 0, final_provider := Option.none, success := false }, {})
  else
    match strategySelect candidates with
    | Option.none => some (retryFinalFailure {}, {})
    | some first => retryOuterLoop forward candidates maxRetries
        (candidates.length + 1) first {}

/-- A 5xx response is not a success. -/
theorem is_success_false_of_500 (r : ProviderResponse)
    (h : 500 ≤ r.status_code) : r.is_success = false := by
  unfold ProviderResponse.is_success
  rw [decide_eq_false (by omega : ¬ r.status_code < 400)]
  simp

/-- A 5xx response is in the transient server-error class. -/
theorem is_server_error_true_of_500 (r : ProviderResponse)
    (h : 500 ≤ r.status_code) : r.is_server_error = true := by
  unfold ProviderResponse.is_server_error
  rw [decide_eq_true (by omega : 500 ≤ r.status_code)]
  simp

/-- Inner retry loop against an all-5xx forward function: all `remaining`
attempts are spent on provider `p` (with a sleep between consecutive ones),
every attempt increments the retry counter, and the loop exits with no
success, the last produced response in hand. -/
theorem retryInnerLoop_all_server_error
    (forward : Nat → CandidateProvider → ProviderResponse) (p : CandidateProvider)
    (h5 : ∀ i, 500 ≤ (forward i p).status_code) :
    ∀ remaining st, 1 ≤ remaining →
      retryInnerLoop forward p remaining st =
        ({ st with callIdx := st.callIdx + remaining,
                   total := st.total + remaining,
                   sleeps := st.sleeps + (remaining - 1),
                   callsLog := st.callsLog ++ List.replicate remaining p,
                   lastResponse := some (forward (st.callIdx + remaining - 1) p) },
         Option.none) := by
  intro remaining
  induction remaining with
  | zero => intro st h; omega
  | succ k ih =>
    intro st _
    rw [retryInnerLoop, is_success_false_of_500 _ (h5 _),
      is_server_error_true_of_500 _ (h5 _), if_neg (by simp), if_pos rfl]
    rcases k with _ | k2
    · rw [if_pos rfl]
      simp [List.replicate]
    · rw [if_neg (by omega), ih _ (by omega)]
      simp only [Prod.mk.injEq]
      refine ⟨?_, trivial⟩
      ext
      · simp only []; omega
      · simp only []; omega
      · simp only []; omega
      · simp only [List.append_assoc, List.replicate_succ,
          List.singleton_append]
      · simp only [Option.some.injEq]
        have harg : st.callIdx + 1 + (k2 + 1) - 1 = st.callIdx + (k2 + 1 + 1) - 1 := by
          omega
        rw [harg]
      · rfl
      · rfl

/-- Appending at least one copy of `a` makes `a` the last element. -/
theorem getLast?_append_replicate {α : Type} (l : List α) (a : α) (n : Nat)
    (hn : 1 ≤ n) : (l ++ List.replicate n a).getLast? = some a := by
  rcases n with _ | k
  · omega
  · rw [List.replicate_succ', ← List.append_assoc, List.getLast?_concat]

/-- Marking one untried member of a candidate list with pairwise-distinct
provider ids as tried shrinks the untried count by exactly one. -/
theorem untried_count_cons (x : Int) :
    ∀ (l : List CandidateProvider) (tried : List Int),
      (∃ c ∈ l, c.provider_id = x) →
      (l.map (fun d => d.provider_id)).Nodup →
      tried.contains x = false →
      (l.filter (fun d => !((x :: tried).contains d.provider_id))).length + 1 =
      (l.filter (fun d => !(tried.contains d.provider_id))).length := by
  intro l
  induction l with
  | nil => intro tried hx _ _; simp at hx
  | cons d rest ih =>
    intro tried hx hnd htr
    have hnd' : (∀ e ∈ rest, ¬ e.provider_id = d.provider_id) ∧
        (rest.map (fun d => d.provider_id)).Nodup := by simpa using hnd
    have hmemtr : x ∉ tried := by simpa using htr
    by_cases hdx : d.provider_id = x
    · have hrest : ∀ e ∈ rest, (!((x :: tried).contains e.provider_id)) =
          (!(tried.contains e.provider_id)) := by
        intro e he
        have hne : e.provider_id ≠ x := by
          intro hex
          exact hnd'.1 e he (by rw [hex, hdx])
        simp [List.contains_cons, hne]
      rw [List.filter_cons, List.filter_cons]
      rw [if_neg (by simp [List.contains_cons, hdx]),
        if_pos (by simp [hdx]; exact hmemtr)]
      rw [List.filter_congr hrest]
      simp
    · have hdpred : (!((x :: tried).contains d.provider_id)) =
          (!(tried.contains d.provider_id)) := by
        simp [List.contains_cons, hdx]
      have hxrest : ∃ c ∈ rest, c.provider_id = x := by
        rcases hx with ⟨c, hc, hcx⟩
        rcases List.mem_cons.mp hc with hcd | hcr
        · exact absurd (hcd ▸ hcx) hdx
        · exact ⟨c, hcr, hcx⟩
      have hnd2 : (rest.map (fun d => d.provider_id)).Nodup := hnd'.2
      rw [List.filter_cons, List.filter_cons, hdpred]
      by_cases hp : (!(tried.contains d.provider_id)) = true
      · rw [if_pos hp, if_pos hp]
        simp only [List.length_cons]
        have := ih tried hxrest hnd2 htr
        omega
      · rw [if_neg hp, if_neg hp]
        exact ih tried hxrest hnd2 htr

/-- Inserting an id that is not in the tried set conses it. -/
theorem insertTried_of_not_contains (x : Int) (tried : List Int)
    (h : tried.contains x = false) : insertTried x tried = x :: tried := by
  unfold insertTried
  rw [if_neg (by rw [h]; exact Bool.false_ne_true)]

/-- Outer failover loop against an all-5xx forward function: starting from an
untried current provider, every remaining untried candidate is tried with
the full per-provider retry budget `m`, the loop fails, and both the total
retry counter and the call counter advance by `m` per untried candidate. -/
theorem retryOuterLoop_all_server_error
    (forward : Nat → CandidateProvider → ProviderResponse)
    (candidates : List CandidateProvider) (m : Nat) (hm : 1 ≤ m)
    (h5 : ∀ i p, 500 ≤ (forward i p).status_code)
    (hnd : (candidates.map (fun d => d.provider_id)).Nodup) :
    ∀ fuel current st,
      current ∈ candidates →
      st.tried.contains current.provider_id = false →
      (candidates.filter (fun d =>
        !((insertTried current.provider_id st.tried).contains d.provider_id))).length
        < fuel →
      ∃ pLast stF,
        retryOuterLoop forward candidates m fuel current st =
          some ({ response := forward (stF.callIdx - 1) pLast,
                  retry_count := stF.total, final_provider := some pLast,
                  success := false }, stF) ∧
        stF.total = st.total +
          (candidates.filter (fun d =>
            !(st.tried.contains d.provider_id))).length * m ∧
        stF.callIdx = st.callIdx +
          (candidates.filter (fun d =>
            !(st.tried.contains d.provider_id))).length * m ∧
        stF.callsLog.getLast? = some pLast := by
  intro fuel
  induction fuel with
  | zero => intro current st _ _ hcount; omega
  | succ f ihf =>
    intro current st hmem htried hcount
    have hins : insertTried current.provider_id st.tried =
        current.provider_id :: st.tried :=
      insertTried_of_not_contains _ _ htried
    have hU : (candidates.filter (fun d =>
        !((current.provider_id :: st.tried).contains d.provider_id))).length + 1 =
        (candidates.filter (fun d => !(st.tried.contains d.provider_id))).length :=
      untried_count_cons current.provider_id candidates st.tried
        ⟨current, hmem, rfl⟩ hnd htried
    have hfl : retryInnerLoop forward current m
        { st with tried := insertTried current.provider_id st.tried,
                  lastProvider := some current } =
        ({ st with callIdx := st.callIdx + m, total := st.total + m,
                   sleeps := st.sleeps + (m - 1),
                   callsLog := st.callsLog ++ List.replicate m current,
                   lastResponse := some (forward (st.callIdx + m - 1) current),
                   lastProvider := some current,
                   tried := insertTried current.provider_id st.tried },
         Option.none) := by
      rw [retryInnerLoop_all_server_error forward current (fun i => h5 i current)
        m _ hm]
    rw [retryOuterLoop, hfl]
    rcases hnext : get_next_untried_provider candidates
        (insertTried current.provider_id st.tried) with _ | next
    · -- no untried candidate remains: the loop fails with the last response
      have hu0 : (candidates.filter (fun d =>
          !((insertTried current.provider_id st.tried).contains d.provider_id))).length
          = 0 := by
        unfold get_next_untried_provider at hnext
        rw [List.find?_eq_none] at hnext
        rw [List.length_eq_zero, List.filter_eq_nil_iff]
        intro a ha
        simpa using hnext a ha
      refine ⟨current,
        { st with callIdx := st.callIdx + m, total := st.total + m,
                  sleeps := st.sleeps + (m - 1),
                  callsLog := st.callsLog ++ List.replicate m current,
                  lastResponse := some (forward (st.callIdx + m - 1) current),
                  lastProvider := some current,
                  tried := insertTried current.provider_id st.tried },
        ?_, ?_, ?_, ?_⟩
      · show (match get_next_untried_provider candidates
            (insertTried current.provider_id st.tried) with
          | Option.none => _
          | some next => _) = _
        rw [hnext]
        rfl
      · simp only []
        rw [← hins] at hU
        have h1 : (candidates.filter
            (fun d => !(st.tried.contains d.provider_id))).length = 1 := by omega
        rw [h1]
        omega
      · simp only []
        rw [← hins] at hU
        have h1 : (candidates.filter
            (fun d => !(st.tried.contains d.provider_id))).length = 1 := by omega
        rw [h1]
        omega
      · simp only []
        exact getLast?_append_replicate _ _ _ hm
    · -- advance to the next untried candidate
      have hnext2 : candidates.find? (fun c =>
          !((insertTried current.provider_id st.tried).contains c.provider_id))
          = some next := hnext
      have hpred := List.find?_some hnext2
      have hmem2 := List.mem_of_find?_eq_some hnext2
      have hnt : (insertTried current.provider_id st.tried).contains
          next.provider_id = false := by
        simpa using hpred
      have hcount2 : (candidates.filter (fun d =>
          !((insertTried next.provider_id
            (insertTried current.provider_id st.tried)).contains d.provider_id))).length
          < f := by
        have hins2 : insertTried next.provider_id
            (insertTried current.provider_id st.tried) =
            next.provider_id :: insertTried current.provider_id st.tried :=
          insertTried_of_not_contains _ _ hnt
        have := untried_count_cons next.provider_id candidates
          (insertTried current.provider_id st.tried) ⟨next, hmem2, rfl⟩ hnd hnt
        rw [hins2]
        omega
      obtain ⟨pLast, stF, heq, htot, hidx, hlog⟩ := ihf next
        { st with callIdx := st.callIdx + m, total := st.total + m,
                  sleeps := st.sleeps + (m - 1),
                  callsLog := st.callsLog ++ List.replicate m current,
                  lastResponse := some (forward (st.callIdx + m - 1) current),
                  lastProvider := some current,
                  tried := insertTried current.provider_id st.tried }
        hmem2 hnt hcount2
      refine ⟨pLast, stF, ?_, ?_, ?_, hlog⟩
      · show (match get_next_untried_provider candidates
            (insertTried current.provider_id st.tried) with
          | Option.none => _
          | some next => _) = _
        rw [hnext]
        exact heq
      · simp only [] at htot
        rw [← hins] at hU
        rw [← hU, Nat.add_mul]
        omega
      · simp only [] at hidx
        rw [← hins] at hU
        rw [← hU, Nat.add_mul]
        omega

/-- C1: when every forward call returns a 5xx response, `execute_with_retry`
over a non-empty candidate list with pairwise-distinct provider ids (and a
strategy whose pick is a member of the list) fails with
`retry_count = max_retries * len(candidates)` and returns the response of the
last forward call (call index `max_retries * len(candidates) - 1`, made to
the final provider). -/
theorem execute_with_retry_all_server_error
    (strategySelect : List CandidateProvider → Option CandidateProvider)
    (m : Nat) (candidates : List CandidateProvider)
    (forward : Nat → CandidateProvider → ProviderResponse)
    (first : CandidateProvider)
    (hm : 1 ≤ m) (hne : candidates ≠ [])
    (hnd : (candidates.map (fun d => d.provider_id)).Nodup)
    (h5 : ∀ i p, 500 ≤ (forward i p).status_code)
    (hsel : strategySelect candidates = some first)
    (hmem : first ∈ candidates) :
    ∃ pLast stF,
      execute_with_retry strategySelect m candidates forward =
        some ({ response := forward (m * candidates.length - 1) pLast,
                retry_count := m * candidates.length,
                final_provider := some pLast, success := false }, stF) ∧
      stF.callIdx = m * candidates.length ∧
      stF.callsLog.getLast? = some pLast := by
  have hU0 : (candidates.filter
      (fun d => !(([] : List Int).contains d.provider_id))).length
      = candidates.length := by
    rw [List.filter_length_eq_length.mpr]
    intro a _
    rfl
  have hcnt : (candidates.filter (fun d =>
      !((insertTried first.provider_id ([] : List Int)).contains
        d.provider_id))).length < candidates.length + 1 := by
    have := untried_count_cons first.provider_id candidates []
      ⟨first, hmem, rfl⟩ hnd rfl
    rw [insertTried_of_not_contains first.provider_id [] rfl]
    omega
  obtain ⟨pLast, stF, heq, htot, hidx, hlog⟩ :=
    retryOuterLoop_all_server_error forward candidates m hm h5 hnd
      (candidates.length + 1) first {} hmem rfl hcnt
  simp only [] at htot hidx
  rw [hU0] at htot hidx
  have htot2 : stF.total = m * candidates.length := by
    rw [htot, Nat.zero_add, Nat.mul_comm]
  have hidx2 : stF.callIdx = m * candidates.length := by
    rw [hidx, Nat.zero_add, Nat.mul_comm]
  refine ⟨pLast, stF, ?_, hidx2, hlog⟩
  unfold execute_with_retry
  rw [if_neg (by simpa using hne), hsel]
  show retryOuterLoop forward candidates m (candidates.length + 1) first {} = _
  rw [heq, htot2, hidx2]

/-- A concrete candidate used by the retry witnesses. -/
def witCandA : CandidateProvider :=
  { provider_id := 1, provider_name := "A", base_url := "https://a.example",
    protocol := "openai", api_key := Option.none, target_model := "ma" }

/-- A second concrete candidate used by the retry witnesses. -/
def witCandB : CandidateProvider :=
  { provider_id := 2, provider_name := "B", base_url := "https://b.example",
    protocol := "openai", api_key := Option.none, target_model := "mb" }

/-- Witness for C1: two candidates, one retry per provider, a constant-500
forward function; the run fails with retry count `1 * 2`. -/
theorem execute_with_retry_all_server_error_witness :
    ∃ pLast stF,
      execute_with_retry (fun l => l.head?) 1 [witCandA, witCandB]
        (fun _ _ => { status_code := 500 }) =
        some ({ response := (fun (_ : Nat) (_ : CandidateProvider) =>
                  ({ status_code := 500 } : ProviderResponse)) (1 * 2 - 1) pLast,
                retry_count := 1 * 2,
                final_provider := some pLast, success := false }, stF) ∧
      stF.callIdx = 1 * 2 ∧
      stF.callsLog.getLast? = some pLast := by
  have h := execute_with_retry_all_server_error (fun l => l.head?) 1
    [witCandA, witCandB] (fun _ _ => { status_code := 500 }) witCandA
    (by decide) (by simp) (by decide) (fun _ _ => by norm_num) rfl
    (by simp)
  simpa using h

/-- C2: when the first selected candidate fails non-transiently (neither a
success nor a server error, e.g. a 400) and the next untried candidate
succeeds, the handler calls the first candidate exactly once, sleeps zero
times, immediately calls the second candidate, and returns its success with
`retry_count = 1` and `final_provider` the second candidate. The call log
`[first, second]` records that exactly these two forward calls happen, in
this order. -/
theorem execute_with_retry_non_transient_failover
    (strategySelect : List CandidateProvider → Option CandidateProvider)
    (m : Nat) (candidates : List CandidateProvider)
    (forward : Nat → CandidateProvider → ProviderResponse)
    (first second : CandidateProvider)
    (hm : 1 ≤ m)
    (hlen : 2 ≤ candidates.length)
    (hsel : strategySelect candidates = some first)
    (hnext : get_next_untried_provider candidates
      (insertTried first.provider_id []) = some second)
    (hfail : (forward 0 first).is_success = false)
    (hnosrv : (forward 0 first).is_server_error = false)
    (hok : (forward 1 second).is_success = true) :
    ∃ stF,
      execute_with_retry strategySelect m candidates forward =
        some ({ response := forward 1 second, retry_count := 1,
                final_provider := some second, success := true }, stF) ∧
      stF.callsLog = [first, second] ∧
      stF.sleeps = 0 := by
  obtain ⟨m0, rfl⟩ : ∃ m0, m = m0 + 1 := ⟨m - 1, by omega⟩
  obtain ⟨n0, hn0⟩ : ∃ n0, candidates.length = n0 + 2 :=
    ⟨candidates.length - 2, by omega⟩
  have hinner1 : retryInnerLoop forward first (m0 + 1)
      { tried := insertTried first.provider_id [], lastProvider := some first } =
      ({ callIdx := 1, total := 1, sleeps := 0, callsLog := [first],
         lastResponse := some (forward 0 first), lastProvider := some first,
         tried := insertTried first.provider_id [] }, Option.none) := by
    rw [retryInnerLoop]
    dsimp only []
    rw [if_neg (by rw [hfail]; exact Bool.false_ne_true),
        if_neg (by rw [hnosrv]; exact Bool.false_ne_true)]
    rfl
  have hinner2 : retryInnerLoop forward second (m0 + 1)
      { callIdx := 1, total := 1, sleeps := 0, callsLog := [first],
        lastResponse := some (forward 0 first), lastProvider := some second,
        tried := insertTried second.provider_id (insertTried first.provider_id []) } =
      ({ callIdx := 2, total := 1, sleeps := 0, callsLog := [first, second],
         lastResponse := some (forward 1 second), lastProvider := some second,
         tried := insertTried second.provider_id (insertTried first.provider_id []) },
       some (forward 1 second)) := by
    rw [retryInnerLoop]
    dsimp only []
    rw [if_pos hok]
    rfl
  refine ⟨{ callIdx := 2, total := 1, sleeps := 0, callsLog := [first, second],
            lastResponse := some (forward 1 second), lastProvider := some second,
            tried := insertTried second.provider_id (insertTried first.provider_id []) },
    ?_, rfl, rfl⟩
  unfold execute_with_retry
  rw [if_neg (by rw [List.isEmpty_iff]; intro h; rw [h] at hlen; simp at hlen), hsel]
  show retryOuterLoop forward candidates (m0 + 1) (candidates.length + 1) first {} = _
  rw [hn0, retryOuterLoop]
  dsimp only []
  rw [hinner1]
  dsimp only []
  rw [hnext]
  show retryOuterLoop forward candidates (m0 + 1) ((n0 + 1) + 1) second
      { callIdx := 1, total := 1, sleeps := 0, callsLog := [first],
        lastResponse := some (forward 0 first), lastProvider := some first,
        tried := insertTried first.provider_id [] } = _
  rw [retryOuterLoop]
  dsimp only []
  rw [hinner2]

/-- Witness for C2: candidate A answers 400 on the first call, candidate B
answers 200 on the second; the handler fails over immediately. -/
theorem execute_with_retry_non_transient_failover_witness :
    ∃ stF,
      execute_with_retry (fun l => l.head?) 3 [witCandA, witCandB]
        (fun i _ => if i = 0 then { status_code := 400 } else { status_code := 200 }) =
        some ({ response := { status_code := 200 }, retry_count := 1,
                final_provider := some witCandB, success := true }, stF) ∧
      stF.callsLog = [witCandA, witCandB] ∧
      stF.sleeps = 0 := by
  have h := execute_with_retry_non_transient_failover (fun l => l.head?) 3
    [witCandA, witCandB]
    (fun i _ => if i = 0 then { status_code := 400 } else { status_code := 200 })
    witCandA witCandB (by omega) (by decide) rfl rfl
    (by decide) (by decide) (by decide)
  simpa using h

/-! ## Errors (app/common/errors.py) and the proxy entry checks
(app/services/proxy_service.py, app/api/proxy/openai.py) -/

/-- Embeds the `AppError` hierarchy of app/common/errors.py: every error
carries a message, an error type, a code and the HTTP status used when it is
surfaced. -/
structure AppError where
  message : String
  error_type : String
  code : String
  status_code : Int

/-- Embeds `ServiceError` (app/common/errors.py lines 172-191): error type
`service_error`, HTTP status 503. -/
def serviceError (message code : String) : AppError :=
  { message := message, error_type := "service_error", code := code,
    status_code := 503 }

/-- Embeds `NotFoundError` (app/common/errors.py lines 83-102): error type
`not_found_error`, HTTP status 404. -/
def notFoundError (message code : String) : AppError :=
  { message := message, error_type := "not_found_error", code := code,
    status_code := 404 }

/-- Embeds the head of `ProxyService.process_request`
(app/services/proxy_service.py lines 92-99): extract `requested_model` from
the body with `body.get("model")`; a missing or falsy value raises
`ServiceError(code="missing_model")`. The remainder of the pipeline (mapping
lookup, candidate selection, retry execution, logging) is abstracted as the
continuation `rest`, the only place from which an upstream forward could be
issued; the missing-model failure returns before `rest` runs. -/
def process_request (body : List (String × PyValue))
    (rest : PyValue → Except AppError (ProviderResponse × List (String × PyValue))) :
    Except AppError (ProviderResponse × List (String × PyValue)) :=
  let requested_model := (lookupStr body ("model")).getD PyValue.none
  if !pyTruthy requested_model then
    Except.error (serviceError ("Model is required in request body") ("missing_model"))
  else
    rest requested_model

/-- The error code of a failed run (empty for successes). -/
def errorCode {α : Type} : Except AppError α → String
  | Except.error e => e.code
  | Except.ok _ => ""

/-- Embeds the error surfacing of the proxy routes (app/api/proxy/openai.py,
`except AppError as e: return JSONResponse(..., status_code=e.status_code)`;
successful runs answer with the upstream response status). -/
def surfaced_status
    (r : Except AppError (ProviderResponse × List (String × PyValue))) : Int :=
  match r with
  | Except.error e => e.status_code
  | Except.ok (resp, _) => resp.status_code

/-- C3 (amended): a body without a `model` key (or with a falsy one) makes
`process_request` fail with `ServiceError(code="missing_model")` before the
rest of the pipeline runs — the result is the same error for every
continuation, so no upstream forward is issued — and the failure surfaces to
the client with HTTP status 503 (the `ServiceError` status), not 404. -/
theorem process_request_missing_model
    (body : List (String × PyValue))
    (rest : PyValue → Except AppError (ProviderResponse × List (String × PyValue)))
    (hmodel : pyTruthy ((lookupStr body ("model")).getD PyValue.none) = false) :
    process_request body rest =
      Except.error (serviceError ("Model is required in request body")
        ("missing_model")) ∧
    errorCode (process_request body rest) = "missing_model" ∧
    surfaced_status (process_request body rest) = 503 := by
  have h : process_request body rest =
      Except.error (serviceError ("Model is required in request body")
        ("missing_model")) := by
    unfold process_request
    rw [if_pos (by rw [hmodel]; rfl)]
  refine ⟨h, ?_, ?_⟩ <;> rw [h] <;> rfl

/-- Witness for C3 (amended) at the empty body. -/
theorem process_request_missing_model_witness :
    process_request [] (fun _ => Except.ok ({ status_code := 200 }, [])) =
      Except.error (serviceError ("Model is required in request body")
        ("missing_model")) ∧
    errorCode (process_request []
      (fun _ => Except.ok ({ status_code := 200 }, []))) = "missing_model" ∧
    surfaced_status (process_request []
      (fun _ => Except.ok ({ status_code := 200 }, []))) = 503 :=
  process_request_missing_model [] (fun _ => Except.ok ({ status_code := 200 }, []))
    rfl

/-- C3 (counterexample): for the empty body the missing-model failure is
surfaced with HTTP status 503, not the 404 the claim states (and not 400). -/
theorem missing_model_not_404_counterexample :
    surfaced_status (process_request []
      (fun _ => Except.ok ({ status_code := 200 }, []))) = 503 ∧
    ¬ surfaced_status (process_request []
      (fun _ => Except.ok ({ status_code := 200 }, []))) = 404 ∧
    ¬ surfaced_status (process_request []
      (fun _ => Except.ok ({ status_code := 200 }, []))) = 400 := by
  refine ⟨rfl, ?_, ?_⟩ <;> decide

/-! ## Protocol conversion of requests (app/common/protocol_conversion.py)

The litellm transforms (`AnthropicConfig().transform_request`,
`AnthropicExperimentalPassThroughConfig().translate_anthropic_to_openai`) are
third-party dependencies, not repository code; they enter the embedding as
abstract function arguments. Everything around them — protocol
normalization, endpoint gating, the `optional_params` synthesis — is the
repository's code and is embedded directly. -/

/-- Embeds Python dict assignment `d[key] = v` on the association-list
representation: overwrite in place, append when the key is new. -/
def dictSet : List (String × PyValue) → String → PyValue → List (String × PyValue)
  | [], key, v => [(key, v)]
  | (k, w) :: rest, key, v =>
    if k == key then (k, v) :: rest else (k, w) :: dictSet rest key v

/-- Embeds `normalize_protocol` from app/common/protocol_conversion.py:
falsy protocols default to `openai`; lowercase and strip; anything other
than `openai`/`anthropic` raises `ServiceError(code="unsupported_protocol")`. -/
def normalize_protocol (protocol : String) : Except AppError String :=
  let p := strStrip (strLower (if protocol = "" then "openai" else protocol))
  if p = "openai" || p = "anthropic" then Except.ok p
  else Except.error (serviceError ("Unsupported protocol") ("unsupported_protocol"))

/-- Embeds `optional_params = {k: v for k, v in openai_body.items() if k not
in ("model", "messages")}` (app/common/protocol_conversion.py line 99). -/
def optionalParamsBase (openai_body : List (String × PyValue)) :
    List (String × PyValue) :=
  openai_body.filter (fun kv => !(kv.1 == "model") && !(kv.1 == "messages"))

/-- Embeds the first synthesis `if` (line 100-101): copy
`max_completion_tokens` to `max_tokens` when the latter is absent and the
former present. -/
def openaiOptionalParamsStep1 (base : List (String × PyValue)) :
    List (String × PyValue) :=
  if (lookupStr base ("max_tokens")).isNone &&
      !(lookupStr base ("max_completion_tokens")).isNone then
    dictSet base ("max_tokens")
      ((lookupStr base ("max_completion_tokens")).getD PyValue.none)
  else base

/-- Embeds the second synthesis `if` (line 102-103): default `max_tokens` to
1024 when still absent. -/
def openaiOptionalParamsStep2 (withMct : List (String × PyValue)) :
    List (String × PyValue) :=
  if (lookupStr withMct ("max_tokens")).isNone then
    dictSet withMct ("max_tokens") (PyValue.int 1024)
  else withMct

/-- The `optional_params` computation of `convert_request_for_supplier`
(app/common/protocol_conversion.py lines 99-103). -/
def openaiOptionalParams (openai_body : List (String × PyValue)) :
    List (String × PyValue) :=
  openaiOptionalParamsStep2 (openaiOptionalParamsStep1 (optionalParamsBase openai_body))

/-- Embeds `convert_request_for_supplier` from
app/common/protocol_conversion.py over the abstract litellm transforms
`anthropicTransformRequest` (OpenAI→Anthropic body build) and
`anthropicToOpenai` (Anthropic→OpenAI body build). -/
def convert_request_for_supplier
    (anthropicTransformRequest :
      String → List PyValue → List (String × PyValue) → List (String × PyValue))
    (anthropicToOpenai : List (String × PyValue) → List (String × PyValue))
    (request_protocol supplier_protocol path : String)
    (body : List (String × PyValue)) (target_model : String) :
    Except AppError (String × List (String × PyValue)) := do
  let rp ← normalize_protocol request_protocol
  let sp ← normalize_protocol supplier_protocol
  if rp = sp then
    return (path, dictSet body ("model") (PyValue.str target_model))
  else if rp = "openai" && sp = "anthropic" then
    if path ≠ "/v1/chat/completions" then
      Except.error (serviceError ("Unsupported OpenAI endpoint for conversion")
        ("unsupported_protocol_conversion"))
    else
      match lookupStr body ("messages") with
      | some (PyValue.list messages) =>
        return ("/v1/messages",
          anthropicTransformRequest target_model messages (openaiOptionalParams body))
      | _ => Except.error (serviceError ("OpenAI request missing messages")
          ("invalid_request"))
  else if rp = "anthropic" && sp = "openai" then
    if path ≠ "/v1/messages" then
      Except.error (serviceError ("Unsupported Anthropic endpoint for conversion")
        ("unsupported_protocol_conversion"))
    else
      return ("/v1/chat/completions",
        anthropicToOpenai (dictSet body ("model") (PyValue.str target_model)))
  else
    Except.error (serviceError ("Unsupported protocol conversion")
      ("unsupported_protocol_conversion"))

/-- Setting a key makes it present with that value. -/
theorem lookupStr_dictSet (l : List (String × PyValue)) (key : String) (v : PyValue) :
    lookupStr (dictSet l key v) key = some v := by
  induction l with
  | nil => simp [dictSet, lookupStr]
  | cons kv rest ih =>
    unfold dictSet
    by_cases h : kv.1 == key
    · rw [if_pos h]
      unfold lookupStr
      rw [if_pos h]
    · rw [if_neg h]
      show lookupStr ((kv.1, kv.2) :: dictSet rest key v) key = some v
      unfold lookupStr
      rw [if_neg h]
      exact ih

/-- Filtering out the `model`/`messages` keys does not change the lookup of
any other key. -/
theorem lookupStr_filter_model_messages (l : List (String × PyValue))
    (key : String) (hk1 : ¬ key = "model") (hk2 : ¬ key = "messages") :
    lookupStr (l.filter (fun kv => !(kv.1 == "model") && !(kv.1 == "messages")))
      key = lookupStr l key := by
  induction l with
  | nil => rfl
  | cons kv rest ih =>
    rw [List.filter_cons]
    by_cases h : kv.1 == key
    · have h1 : kv.1 = key := by simpa using h
      rw [if_pos (by simp [h1, hk1, hk2])]
      unfold lookupStr
      rw [if_pos h, if_pos h]
    · by_cases hp : (!(kv.1 == "model") && !(kv.1 == "messages")) = true
      · rw [if_pos hp]
        unfold lookupStr
        rw [if_neg h, if_neg h]
        exact ih
      · rw [if_neg hp]
        rw [ih]
        conv_rhs => unfold lookupStr
        rw [if_neg h]

/-- C8: for an OpenAI-protocol request to an Anthropic-protocol provider,
`convert_request_for_supplier` (i) fails with
`unsupported_protocol_conversion` on every path other than
`/v1/chat/completions`, (ii) on that path with a well-formed `messages` list
returns path `/v1/messages` and the body built by the Anthropic transform
from the translated parameters, and (iii) when the body has no `max_tokens`
key the translated parameters carry `max_tokens` equal to the body's
`max_completion_tokens` when present and `1024` otherwise. -/
theorem convert_openai_to_anthropic_request
    (anthropicTransformRequest :
      String → List PyValue → List (String × PyValue) → List (String × PyValue))
    (anthropicToOpenai : List (String × PyValue) → List (String × PyValue))
    (path : String) (body : List (String × PyValue)) (target_model : String) :
    (path ≠ "/v1/chat/completions" →
      convert_request_for_supplier anthropicTransformRequest anthropicToOpenai
        ("openai") ("anthropic") path body target_model =
        Except.error (serviceError ("Unsupported OpenAI endpoint for conversion")
          ("unsupported_protocol_conversion"))) ∧
    (∀ messages, lookupStr body ("messages") = some (PyValue.list messages) →
      convert_request_for_supplier anthropicTransformRequest anthropicToOpenai
        ("openai") ("anthropic") ("/v1/chat/completions") body target_model =
        Except.ok ("/v1/messages",
          anthropicTransformRequest target_model messages
            (openaiOptionalParams body))) ∧
    (lookupStr body ("max_tokens") = Option.none →
      lookupStr (openaiOptionalParams body) ("max_tokens") =
        some ((lookupStr body ("max_completion_tokens")).getD (PyValue.int 1024))) := by
  have hred : ∀ pth, convert_request_for_supplier anthropicTransformRequest
      anthropicToOpenai ("openai") ("anthropic") pth body target_model =
      (if pth ≠ "/v1/chat/completions" then
        Except.error (serviceError ("Unsupported OpenAI endpoint for conversion")
          ("unsupported_protocol_conversion"))
      else
        match lookupStr body ("messages") with
        | some (PyValue.list messages) =>
          Except.ok ("/v1/messages",
            anthropicTransformRequest target_model messages
              (openaiOptionalParams body))
        | _ => Except.error (serviceError ("OpenAI request missing messages")
            ("invalid_request"))) := fun pth => rfl
  refine ⟨?_, ?_, ?_⟩
  · intro hpath
    rw [hred path, if_pos hpath]
  · intro messages hmsg
    rw [hred ("/v1/chat/completions"),
      if_neg (by decide : ¬ ("/v1/chat/completions" : String) ≠ "/v1/chat/completions"),
      hmsg]
  · intro hmt
    have hbase : lookupStr (optionalParamsBase body) ("max_tokens") =
        Option.none := by
      unfold optionalParamsBase
      rw [lookupStr_filter_model_messages body ("max_tokens") (by decide) (by decide)]
      exact hmt
    have hmct : lookupStr (optionalParamsBase body) ("max_completion_tokens") =
        lookupStr body ("max_completion_tokens") := by
      unfold optionalParamsBase
      exact lookupStr_filter_model_messages body ("max_completion_tokens")
        (by decide) (by decide)
    unfold openaiOptionalParams
    rcases hv : lookupStr body ("max_completion_tokens") with _ | v
    · have hs1 : openaiOptionalParamsStep1 (optionalParamsBase body) =
          optionalParamsBase body := by
        unfold openaiOptionalParamsStep1
        rw [hbase, hmct, hv]
        rfl
      rw [hs1]
      unfold openaiOptionalParamsStep2
      rw [hbase]
      show lookupStr (dictSet (optionalParamsBase body) ("max_tokens")
        (PyValue.int 1024)) ("max_tokens") = _
      rw [lookupStr_dictSet]
      rfl
    · have hs1 : openaiOptionalParamsStep1 (optionalParamsBase body) =
          dictSet (optionalParamsBase body) ("max_tokens") v := by
        unfold openaiOptionalParamsStep1
        rw [hbase, hmct, hv]
        rfl
      rw [hs1]
      unfold openaiOptionalParamsStep2
      rw [lookupStr_dictSet]
      show lookupStr (dictSet (optionalParamsBase body) ("max_tokens") v)
        ("max_tokens") = _
      rw [lookupStr_dictSet]
      rfl

/-- Witness for C8: a body with neither `max_tokens` nor
`max_completion_tokens` is translated to `/v1/messages` with
`max_tokens = 1024` synthesized in the parameters handed to the transform. -/
theorem convert_openai_to_anthropic_request_witness :
    convert_request_for_supplier (fun _ _ ps => ps) (fun b => b)
      ("openai") ("anthropic") ("/v1/embeddings")
      [("model", PyValue.str ("claude")), ("messages", PyValue.list [])]
      ("claude-3") =
      Except.error (serviceError ("Unsupported OpenAI endpoint for conversion")
        ("unsupported_protocol_conversion")) ∧
    convert_request_for_supplier (fun _ _ ps => ps) (fun b => b)
      ("openai") ("anthropic") ("/v1/chat/completions")
      [("model", PyValue.str ("claude")), ("messages", PyValue.list [])]
      ("claude-3") =
      Except.ok ("/v1/messages", [("max_tokens", PyValue.int 1024)]) ∧
    lookupStr (openaiOptionalParams
      [("model", PyValue.str ("claude")), ("messages", PyValue.list [])])
      ("max_tokens") = some (PyValue.int 1024) := by
  have h := convert_openai_to_anthropic_request (fun _ _ ps => ps) (fun b => b)
    ("/v1/embeddings")
    [("model", PyValue.str ("claude")), ("messages", PyValue.list [])] ("claude-3")
  have h2 := convert_openai_to_anthropic_request (fun _ _ ps => ps) (fun b => b)
    ("/v1/chat/completions")
    [("model", PyValue.str ("claude")), ("messages", PyValue.list [])] ("claude-3")
  refine ⟨h.1 (by decide), ?_, ?_⟩
  · rw [h2.2.1 [] rfl]
    rfl
  · rw [h.2.2 rfl]
    rfl

/-! ## Streaming conversion, Anthropic supplier → OpenAI client
(app/common/protocol_conversion.py lines 279-398)

The generator consumes SSE payloads and emits SSE events. The embedding
works at the event level: each upstream payload is either the `[DONE]`
sentinel, an unparsable payload (skipped by the `json.loads` guard), or a
parsed JSON value. The emitted stream is a list of `OutEvent`s — encoded
chunks or the `data: [DONE]` terminator — plus a flag recording whether the
generator raised (`data.get` on a non-dict payload raises `AttributeError`,
aborting the stream). `uuid.uuid4()` and `time.time()` are abstracted as the
`fallbackId` and `now` arguments. -/

/-- An upstream SSE payload after the decoder and the `json.loads` guard. -/
inductive SSEvent where
  | done
  | invalid
  | json (v : PyValue)

/-- An emitted SSE event: an encoded chat-completion chunk or the literal
terminator `data: [DONE]`. -/
inductive OutEvent where
  | chunk (v : PyValue)
  | terminator

/-- Embeds `_encode_sse_data`. -/
def encode_sse_data (payload : String) : String := "data: " ++ payload ++ "\n\n"

/-- Embeds `_map_anthropic_finish_reason_to_openai` from
app/common/protocol_conversion.py lines 53-62. -/
def map_anthropic_finish_reason_to_openai (stop_reason : PyValue) : String :=
  if !pyTruthy stop_reason then "stop"
  else if pyEq stop_reason (PyValue.str ("end_turn")) then "stop"
  else if pyEq stop_reason (PyValue.str ("max_tokens")) then "length"
  else if pyEq stop_reason (PyValue.str ("tool_use")) then "tool_calls"
  else "stop"

/-- The chunk objects emitted by the translator: id, `chat.completion.chunk`,
creation time, model, and a single choice with the given delta and finish
reason. -/
def openaiChunk (idv : PyValue) (now : Int) (modelName : String)
    (delta : List (String × PyValue)) (finish : PyValue) : PyValue :=
  PyValue.dict [("id", idv), ("object", PyValue.str ("chat.completion.chunk")),
    ("created", PyValue.int now), ("model", PyValue.str modelName),
    ("choices", PyValue.list [PyValue.dict [("index", PyValue.int 0),
      ("delta", PyValue.dict delta), ("finish_reason", finish)]])]

/-- The loop state of the Anthropic→OpenAI stream branch: `response_id`,
`sent_role`, `done`. -/
structure AnthToOpenaiState where
  responseId : PyValue := PyValue.none
  sentRole : Bool := false
  doneFlag : Bool := false

/-- Embeds `response_id or f"chatcmpl-{uuid.uuid4().hex}"`. -/
def effectiveId (st : AnthToOpenaiState) (fallbackId : String) : PyValue :=
  if pyTruthy st.responseId then st.responseId else PyValue.str fallbackId

/-- Embeds the delta construction: `{"content"/"tool_calls": ...}` plus
`delta["role"] = "assistant"` on the first emitted chunk. -/
def withRole (delta : List (String × PyValue)) (sentRole : Bool) :
    List (String × PyValue) :=
  if sentRole then delta else delta ++ [("role", PyValue.str ("assistant"))]

/-- The `stop_reason` extraction of the `message_delta` branch. -/
def messageDeltaStopReason (kvs : List (String × PyValue)) : PyValue :=
  match (lookupStr kvs ("delta")).getD PyValue.none with
  | PyValue.dict dl => (lookupStr dl ("stop_reason")).getD PyValue.none
  | _ => PyValue.none

/-- Embeds one iteration of the payload loop of `convert_stream_for_user`
(request openai, supplier anthropic; lines 285-394): `[DONE]` payloads and
unparsable payloads are skipped; `message_start` harvests the response id;
`content_block_start`/`content_block_delta` emit content or tool-call
chunks; `message_delta` emits the finish chunk then the terminator;
`message_stop` emits the terminator unless one was already emitted. A
non-dict JSON payload raises (`data.get` on a non-dict), marked by the final
`Bool`. -/
def anthStreamStep (modelName fallbackId : String) (now : Int)
    (st : AnthToOpenaiState) :
    SSEvent → List OutEvent × AnthToOpenaiState × Bool
  | SSEvent.done => ([], st, false)
  | SSEvent.invalid => ([], st, false)
  | SSEvent.json v =>
    match v with
    | PyValue.dict kvs =>
      let event_type := (lookupStr kvs ("type")).getD PyValue.none
      if pyEq event_type (PyValue.str ("message_start")) then
        match (lookupStr kvs ("message")).getD (PyValue.dict []) with
        | PyValue.dict msg =>
          let idv := (lookupStr msg ("id")).getD PyValue.none
          ([], { st with responseId := if pyTruthy idv then idv else st.responseId },
           false)
        | _ => ([], st, false)
      else if pyEq event_type (PyValue.str ("content_block_start")) then
        match (lookupStr kvs ("content_block")).getD (PyValue.dict []) with
        | PyValue.dict cb =>
          if pyEq ((lookupStr cb ("type")).getD PyValue.none)
              (PyValue.str ("text")) then
            let tv0 := (lookupStr cb ("text")).getD PyValue.none
            let text := if pyTruthy tv0 then tv0 else PyValue.str ("")
            if pyTruthy text then
              ([OutEvent.chunk (openaiChunk (effectiveId st fallbackId) now modelName
                 (withRole [("content", text)] st.sentRole) PyValue.none)],
               { st with sentRole := true }, false)
            else ([], st, false)
          else ([], st, false)
        | _ => ([], st, false)
      else if pyEq event_type (PyValue.str ("content_block_delta")) then
        match (lookupStr kvs ("delta")).getD PyValue.none with
        | PyValue.dict dl =>
          let delta_type := (lookupStr dl ("type")).getD PyValue.none
          if pyEq delta_type (PyValue.str ("text_delta")) then
            let tv0 := (lookupStr dl ("text")).getD PyValue.none
            let text := if pyTruthy tv0 then tv0 else PyValue.str ("")
            if pyTruthy text then
              ([OutEvent.chunk (openaiChunk (effectiveId st fallbackId) now modelName
                 (withRole [("content", text)] st.sentRole) PyValue.none)],
               { st with sentRole := true }, false)
            else ([], st, false)
          else if pyEq delta_type (PyValue.str ("input_json_delta")) then
            let pj0 := (lookupStr dl ("partial_json")).getD PyValue.none
            let partialJson := if pyTruthy pj0 then pj0 else PyValue.str ("")
            if pyTruthy partialJson then
              ([OutEvent.chunk (openaiChunk (effectiveId st fallbackId) now modelName
                 (withRole [("tool_calls", PyValue.list [PyValue.dict
                    [("index", PyValue.int 0), ("id", PyValue.none),
                     ("type", PyValue.str ("function")),
                     ("function", PyValue.dict [("name", PyValue.none),
                       ("arguments", partialJson)])]])] st.sentRole) PyValue.none)],
               { st with sentRole := true }, false)
            else ([], st, false)
          else ([], st, false)
        | _ => ([], st, false)
      else if pyEq event_type (PyValue.str ("message_delta")) then
        ([OutEvent.chunk (openaiChunk (effectiveId st fallbackId) now modelName []
            (PyValue.str (map_anthropic_finish_reason_to_openai
              (messageDeltaStopReason kvs)))),
          OutEvent.terminator],
         { st with doneFlag := true }, false)
      else if pyEq event_type (PyValue.str ("message_stop")) then
        if st.doneFlag then ([], st, false)
        else ([OutEvent.terminator], { st with doneFlag := true }, false)
      else ([], st, false)
    | _ => ([], st, true)

/-- Embeds the payload loop plus the end-of-stream synthesis
(`if not done: yield [DONE]`, line 396-397): process payloads until
exhaustion or a raise; when the upstream closes without a terminator, emit
one. -/
def anthropicToOpenaiStreamLoop (modelName fallbackId : String) (now : Int) :
    AnthToOpenaiState → List SSEvent → List OutEvent × Bool
  | st, [] => (if st.doneFlag then [] else [OutEvent.terminator], false)
  | st, e :: rest =>
    if (anthStreamStep modelName fallbackId now st e).2.2 then
      ((anthStreamStep modelName fallbackId now st e).1, true)
    else
      ((anthStreamStep modelName fallbackId now st e).1 ++
        (anthropicToOpenaiStreamLoop modelName fallbackId now
          (anthStreamStep modelName fallbackId now st e).2.1 rest).1,
       (anthropicToOpenaiStreamLoop modelName fallbackId now
          (anthStreamStep modelName fallbackId now st e).2.1 rest).2)

/-- Embeds `convert_stream_for_user` for request protocol `openai` and
supplier protocol `anthropic`: run the loop from the initial state. -/
def convert_stream_openai_from_anthropic (modelName fallbackId : String)
    (now : Int) (events : List SSEvent) : List OutEvent × Bool :=
  anthropicToOpenaiStreamLoop modelName fallbackId now {} events

/-- Whether a payload is safe for `data.get` (skipped sentinels count). -/
def eventObj : SSEvent → Bool
  | SSEvent.json (PyValue.dict _) => true
  | SSEvent.json _ => false
  | _ => true

/-- Whether a payload is a JSON object with the given `type`. -/
def eventTypeIs (name : String) : SSEvent → Bool
  | SSEvent.json (PyValue.dict kvs) =>
    pyEq ((lookupStr kvs ("type")).getD PyValue.none) (PyValue.str name)
  | _ => false

/-- Events whose branch can emit the terminator. -/
def terminatingEvent (e : SSEvent) : Bool :=
  eventTypeIs ("message_delta") e || eventTypeIs ("message_stop") e

/-- Events that produce no output once the terminator is out: skipped
sentinels and `message_stop` objects. -/
def quietEvent (e : SSEvent) : Bool :=
  match e with
  | SSEvent.done => true
  | SSEvent.invalid => true
  | SSEvent.json (PyValue.dict _) => eventTypeIs ("message_stop") e
  | SSEvent.json _ => false

/-- After the first terminator-emitting event, only quiet events follow. -/
def quietTail : List SSEvent → Bool
  | [] => true
  | e :: rest => if terminatingEvent e then rest.all quietEvent else quietTail rest

/-- A value that Python-equals a string literal is that string. -/
theorem pyEq_str_eq (x : PyValue) (s : String)
    (h : pyEq x (PyValue.str s) = true) : x = PyValue.str s := by
  cases x with
  | str a =>
    have ha : a = s := by simpa [pyEq] using h
    rw [ha]
  | none => exact absurd h (by simp [pyEq])
  | bool b => exact absurd h (by simp [pyEq])
  | int n => exact absurd h (by simp [pyEq])
  | list xs => exact absurd h (by simp [pyEq])
  | dict kvs => exact absurd h (by simp [pyEq])

/-- The `message_delta` branch emits the finish chunk followed by the
terminator (irrespective of prior state) and marks the stream done. -/
theorem anthStreamStep_message_delta (modelName fallbackId : String) (now : Int)
    (st : AnthToOpenaiState) (kvs : List (String × PyValue))
    (h : eventTypeIs ("message_delta") (SSEvent.json (PyValue.dict kvs)) = true) :
    anthStreamStep modelName fallbackId now st (SSEvent.json (PyValue.dict kvs)) =
      ([OutEvent.chunk (openaiChunk (effectiveId st fallbackId) now modelName []
          (PyValue.str (map_anthropic_finish_reason_to_openai
            (messageDeltaStopReason kvs)))),
        OutEvent.terminator],
       { st with doneFlag := true }, false) := by
  have het : (lookupStr kvs ("type")).getD PyValue.none =
      PyValue.str ("message_delta") :=
    pyEq_str_eq _ _ (by simpa [eventTypeIs] using h)
  simp only [anthStreamStep]
  rw [het]
  rfl

/-- The `message_stop` branch emits the terminator exactly when none has
been emitted yet. -/
theorem anthStreamStep_message_stop (modelName fallbackId : String) (now : Int)
    (st : AnthToOpenaiState) (kvs : List (String × PyValue))
    (h : eventTypeIs ("message_stop") (SSEvent.json (PyValue.dict kvs)) = true) :
    anthStreamStep modelName fallbackId now st (SSEvent.json (PyValue.dict kvs)) =
      (if st.doneFlag then ([], st, false)
       else ([OutEvent.terminator], { st with doneFlag := true }, false)) := by
  have het : (lookupStr kvs ("type")).getD PyValue.none =
      PyValue.str ("message_stop") :=
    pyEq_str_eq _ _ (by simpa [eventTypeIs] using h)
  simp only [anthStreamStep]
  rw [het]
  rfl

/-- Every step on an object payload other than `message_delta`/`message_stop`
neither raises nor changes the done flag. -/
theorem anthStreamStep_not_terminating (modelName fallbackId : String) (now : Int)
    (st : AnthToOpenaiState) (e : SSEvent)
    (hobj : eventObj e = true) (hnt : terminatingEvent e = false) :
    (anthStreamStep modelName fallbackId now st e).2.2 = false ∧
    ((anthStreamStep modelName fallbackId now st e).2.1).doneFlag = st.doneFlag := by
  rcases e with _ | _ | v
  · exact ⟨rfl, rfl⟩
  · exact ⟨rfl, rfl⟩
  rcases v with _ | b | n | s | xs | kvs
  · exact absurd hobj (by simp [eventObj])
  · exact absurd hobj (by simp [eventObj])
  · exact absurd hobj (by simp [eventObj])
  · exact absurd hobj (by simp [eventObj])
  · exact absurd hobj (by simp [eventObj])
  · have hpair : pyEq ((lookupStr kvs ("type")).getD PyValue.none)
        (PyValue.str ("message_delta")) = false ∧
        pyEq ((lookupStr kvs ("type")).getD PyValue.none)
        (PyValue.str ("message_stop")) = false := by
      simpa [terminatingEvent, eventTypeIs] using hnt
    simp only [anthStreamStep]
    rw [hpair.1, hpair.2]
    repeat' split
    all_goals first | exact ⟨rfl, rfl⟩ | simp_all

/-- Unfolding the loop over a non-raising step. -/
theorem anthStream_loop_cons (modelName fallbackId : String) (now : Int)
    (st : AnthToOpenaiState) (e : SSEvent) (rest : List SSEvent)
    (outs : List OutEvent) (st2 : AnthToOpenaiState)
    (hstep : anthStreamStep modelName fallbackId now st e = (outs, st2, false)) :
    anthropicToOpenaiStreamLoop modelName fallbackId now st (e :: rest) =
      (outs ++ (anthropicToOpenaiStreamLoop modelName fallbackId now st2 rest).1,
       (anthropicToOpenaiStreamLoop modelName fallbackId now st2 rest).2) := by
  conv_lhs => rw [anthropicToOpenaiStreamLoop]
  rw [hstep]
  rw [if_neg (show ¬ (((outs, st2, false) :
    List OutEvent × AnthToOpenaiState × Bool).2.2 = true) from Bool.false_ne_true)]

/-- Once the terminator is out, quiet events (skipped payloads and
`message_stop`) produce nothing for the rest of the stream. -/
theorem anthStream_loop_done_quiet (modelName fallbackId : String) (now : Int) :
    ∀ events (st : AnthToOpenaiState), st.doneFlag = true →
      events.all quietEvent = true →
      anthropicToOpenaiStreamLoop modelName fallbackId now st events = ([], false) := by
  intro events
  induction events with
  | nil =>
    intro st hdone _
    unfold anthropicToOpenaiStreamLoop
    rw [if_pos hdone]
  | cons e rest ih =>
    intro st hdone hq
    have hq1 : quietEvent e = true := by
      have h := hq
      simp only [List.all_cons, Bool.and_eq_true] at h
      exact h.1
    have hq2 : rest.all quietEvent = true := by
      have h := hq
      simp only [List.all_cons, Bool.and_eq_true] at h
      exact h.2
    have hstep : anthStreamStep modelName fallbackId now st e = ([], st, false) := by
      rcases e with _ | _ | v
      · rfl
      · rfl
      rcases v with _ | b | n | s | xs | kvs
      · exact absurd hq1 (by simp [quietEvent])
      · exact absurd hq1 (by simp [quietEvent])
      · exact absurd hq1 (by simp [quietEvent])
      · exact absurd hq1 (by simp [quietEvent])
      · exact absurd hq1 (by simp [quietEvent])
      · have hms : eventTypeIs ("message_stop")
            (SSEvent.json (PyValue.dict kvs)) = true := by
          simpa [quietEvent] using hq1
        rw [anthStreamStep_message_stop modelName fallbackId now st kvs hms,
          if_pos hdone]
    rw [anthStream_loop_cons modelName fallbackId now st e rest [] st hstep,
      ih st hdone hq2]
    rfl

/-- Main terminator lemma: from a not-yet-done state, a stream of object
payloads that is quiet after its first terminator-emitting event produces an
output that does not raise and whose last event is the terminator. -/
theorem anthStream_loop_ends_terminator (modelName fallbackId : String) (now : Int) :
    ∀ events (st : AnthToOpenaiState), st.doneFlag = false →
      events.all eventObj = true → quietTail events = true →
      (anthropicToOpenaiStreamLoop modelName fallbackId now st events).2 = false ∧
      (anthropicToOpenaiStreamLoop modelName fallbackId now st events).1.getLast?
        = some OutEvent.terminator := by
  intro events
  induction events with
  | nil =>
    intro st hdone _ _
    unfold anthropicToOpenaiStreamLoop
    rw [if_neg (by rw [hdone]; exact Bool.false_ne_true)]
    exact ⟨rfl, rfl⟩
  | cons e rest ih =>
    intro st hdone hobj hq
    have hobj1 : eventObj e = true := by
      have h := hobj
      simp only [List.all_cons, Bool.and_eq_true] at h
      exact h.1
    have hobjr : rest.all eventObj = true := by
      have h := hobj
      simp only [List.all_cons, Bool.and_eq_true] at h
      exact h.2
    by_cases ht : terminatingEvent e = true
    · have hqr : rest.all quietEvent = true := by
        have h := hq
        unfold quietTail at h
        rw [if_pos ht] at h
        exact h
      have hdict : ∃ kvs, e = SSEvent.json (PyValue.dict kvs) := by
        rcases e with _ | _ | v
        · exact absurd ht (by simp [terminatingEvent, eventTypeIs])
        · exact absurd ht (by simp [terminatingEvent, eventTypeIs])
        rcases v with _ | b | n | s | xs | kvs
        · exact absurd ht (by simp [terminatingEvent, eventTypeIs])
        · exact absurd ht (by simp [terminatingEvent, eventTypeIs])
        · exact absurd ht (by simp [terminatingEvent, eventTypeIs])
        · exact absurd ht (by simp [terminatingEvent, eventTypeIs])
        · exact absurd ht (by simp [terminatingEvent, eventTypeIs])
        · exact ⟨kvs, rfl⟩
      obtain ⟨kvs, rfl⟩ := hdict
      rcases Bool.or_eq_true_iff.mp (by simpa [terminatingEvent] using ht)
        with hmd | hms
      · -- message_delta: finish chunk, then terminator, then a quiet rest
        rw [anthStream_loop_cons modelName fallbackId now st _ rest _ _
            (anthStreamStep_message_delta modelName fallbackId now st kvs hmd),
          anthStream_loop_done_quiet modelName fallbackId now rest
            { st with doneFlag := true } rfl hqr]
        exact ⟨rfl, by simp⟩
      · -- message_stop before any terminator: the terminator, then quiet rest
        have hstep2 : anthStreamStep modelName fallbackId now st
            (SSEvent.json (PyValue.dict kvs)) =
            ([OutEvent.terminator], { st with doneFlag := true }, false) := by
          rw [anthStreamStep_message_stop modelName fallbackId now st kvs hms,
            if_neg (by rw [hdone]; exact Bool.false_ne_true)]
        rw [anthStream_loop_cons modelName fallbackId now st _ rest _ _ hstep2,
          anthStream_loop_done_quiet modelName fallbackId now rest
            { st with doneFlag := true } rfl hqr]
        exact ⟨rfl, by simp⟩
    · have hnt : terminatingEvent e = false := by
        simpa using ht
      have hqt : quietTail rest = true := by
        have h := hq
        unfold quietTail at h
        rw [if_neg (by rw [hnt]; exact Bool.false_ne_true)] at h
        exact h
      obtain ⟨hcr, hdf⟩ := anthStreamStep_not_terminating modelName fallbackId
        now st e hobj1 hnt
      rcases hstep : anthStreamStep modelName fallbackId now st e
        with ⟨outs, st2, crashed⟩
      rw [hstep] at hcr hdf
      simp only [] at hcr hdf
      subst hcr
      obtain ⟨ih1, ih2⟩ := ih st2 (by rw [hdf, hdone]) hobjr hqt
      rw [anthStream_loop_cons modelName fallbackId now st e rest outs st2 hstep]
      refine ⟨ih1, ?_⟩
      rw [List.getLast?_append, ih2]
      rfl

/-- C9 (amended): over the OpenAI-client/Anthropic-supplier stream branch,
(i) the terminator event is the literal byte string `data: [DONE]\n\n`;
(ii) for every upstream whose JSON payloads parse to objects and in which
only skipped or `message_stop` payloads follow the first terminator-emitting
event, the translated stream does not raise and its last event is the
terminator; (iii) a `message_delta` event emits the mapped finish chunk
immediately followed by the terminator and marks the stream done; (iv) a
`message_stop` event arriving after a terminator emits nothing; (v) an
upstream that closes with no terminator emitted gets one synthesized at end
of stream. -/
theorem convert_stream_terminator_spec (modelName fallbackId : String) (now : Int) :
    encode_sse_data ("[DONE]") = "data: [DONE]\n\n" ∧
    (∀ events, events.all eventObj = true → quietTail events = true →
      (convert_stream_openai_from_anthropic modelName fallbackId now events).2
        = false ∧
      (convert_stream_openai_from_anthropic modelName fallbackId now events).1.getLast?
        = some OutEvent.terminator) ∧
    (∀ (st : AnthToOpenaiState) kvs,
      eventTypeIs ("message_delta") (SSEvent.json (PyValue.dict kvs)) = true →
      anthStreamStep modelName fallbackId now st (SSEvent.json (PyValue.dict kvs)) =
        ([OutEvent.chunk (openaiChunk (effectiveId st fallbackId) now modelName []
            (PyValue.str (map_anthropic_finish_reason_to_openai
              (messageDeltaStopReason kvs)))),
          OutEvent.terminator], { st with doneFlag := true }, false)) ∧
    (∀ (st : AnthToOpenaiState) kvs,
      eventTypeIs ("message_stop") (SSEvent.json (PyValue.dict kvs)) = true →
      st.doneFlag = true →
      anthStreamStep modelName fallbackId now st (SSEvent.json (PyValue.dict kvs)) =
        ([], st, false)) ∧
    (∀ st : AnthToOpenaiState, st.doneFlag = false →
      anthropicToOpenaiStreamLoop modelName fallbackId now st [] =
        ([OutEvent.terminator], false)) := by
  refine ⟨rfl, ?_, ?_, ?_, ?_⟩
  · intro events hobj hq
    exact anthStream_loop_ends_terminator modelName fallbackId now events {}
      rfl hobj hq
  · intro st kvs h
    exact anthStreamStep_message_delta modelName fallbackId now st kvs h
  · intro st kvs h hdone
    rw [anthStreamStep_message_stop modelName fallbackId now st kvs h,
      if_pos hdone]
  · intro st hdone
    unfold anthropicToOpenaiStreamLoop
    rw [if_neg (by rw [hdone]; exact Bool.false_ne_true)]

/-- A well-formed upstream used by the stream witness: a text delta, a
`message_delta` with stop reason, a `[DONE]` sentinel and a `message_stop`. -/
def wStreamEvents : List SSEvent :=
  [SSEvent.json (PyValue.dict [("type", PyValue.str ("content_block_delta")),
     ("delta", PyValue.dict [("type", PyValue.str ("text_delta")),
       ("text", PyValue.str ("hi"))])]),
   SSEvent.json (PyValue.dict [("type", PyValue.str ("message_delta")),
     ("delta", PyValue.dict [("stop_reason", PyValue.str ("end_turn"))])]),
   SSEvent.done,
   SSEvent.json (PyValue.dict [("type", PyValue.str ("message_stop"))])]

/-- Witness for C9 (amended) at a concrete four-event upstream. -/
theorem convert_stream_terminator_spec_witness :
    (convert_stream_openai_from_anthropic ("m") ("fb") 0 wStreamEvents).2
      = false ∧
    (convert_stream_openai_from_anthropic ("m") ("fb") 0 wStreamEvents).1.getLast?
      = some OutEvent.terminator :=
  (convert_stream_terminator_spec ("m") ("fb") 0).2.1 wStreamEvents
    (by rfl) (by rfl)

/-- An upstream that emits a content delta after the `message_delta`. -/
def wAfterDoneEvents : List SSEvent :=
  [SSEvent.json (PyValue.dict [("type", PyValue.str ("message_delta")),
     ("delta", PyValue.dict [("stop_reason", PyValue.str ("end_turn"))])]),
   SSEvent.json (PyValue.dict [("type", PyValue.str ("content_block_delta")),
     ("delta", PyValue.dict [("type", PyValue.str ("text_delta")),
       ("text", PyValue.str ("x"))])])]

/-- C9 (counterexample): the original claim fails on two concrete upstreams.
A payload parsing to the JSON number 5 makes `data.get("type")` raise
`AttributeError`: the stream aborts having emitted nothing, so it does not
end with the terminator. And a content delta arriving after the
`message_delta` is translated after the terminator has gone out: the last
emitted event is that chunk, not the terminator. -/
theorem convert_stream_terminator_counterexample :
    convert_stream_openai_from_anthropic ("m") ("fb") 0
      [SSEvent.json (PyValue.int 5)] = ([], true) ∧
    (convert_stream_openai_from_anthropic ("m") ("fb") 0
      [SSEvent.json (PyValue.int 5)]).1.getLast? = Option.none ∧
    (convert_stream_openai_from_anthropic ("m") ("fb") 0 wAfterDoneEvents).1.getLast?
      = some (OutEvent.chunk (openaiChunk (PyValue.str ("fb")) 0 ("m")
          [("content", PyValue.str ("x")), ("role", PyValue.str ("assistant"))]
          PyValue.none)) :=
  ⟨rfl, rfl, rfl⟩

end LlmGateway
